import Mathlib

/-!
Verification development for the retro_junk_junkbox DRAM-backed VGA framebuffer
controller.  The definitions below are shallow embeddings of the C/C++ source:

* namespace `Fb8`  — `mega_edo_fb8_320x240_fix.ino` (ring-buffered update queue,
  VGA line/frame interrupt handlers, DRAM protocol engine);
* namespace `Fp6`  — the address mapping of `applyBufferToDRAM` in `mega_edo_fp6.ino`;
* namespace `P2`   — `writeDram` / `readDram` of `src/unnamed/part_002`;
* namespace `Opt`  — the refresh scheduler of `src/dram/511000_opt.ino`.

Machine integers are embedded as `Nat` with explicit `% 2 ^ w` at the points
where the C code truncates; fallible operations return a `Bool` alongside the
updated state.
-/

set_option maxRecDepth 8000

namespace Fb8

/-- Vertical front porch in lines (`#define V_FRONT_PORCH 2`). -/
def V_FRONT_PORCH : Nat := 2

/-- Vertical sync pulse in lines (`#define V_SYNC_PULSE 2`). -/
def V_SYNC_PULSE : Nat := 2

/-- Vertical back porch in lines (`#define V_BACK_PORCH 21`). -/
def V_BACK_PORCH : Nat := 21

/-- Visible lines per frame (`#define V_VISIBLE 240`). -/
def V_VISIBLE : Nat := 240

/-- Total lines per frame (`#define V_TOTAL (V_VISIBLE + V_FRONT_PORCH + V_SYNC_PULSE + V_BACK_PORCH)`). -/
def V_TOTAL : Nat := V_VISIBLE + V_FRONT_PORCH + V_SYNC_PULSE + V_BACK_PORCH

/-- Framebuffer width (`const uint16_t FRAMEBUFFER_WIDTH = H_VISIBLE = 320`). -/
def FRAMEBUFFER_WIDTH : Nat := 320

/-- Framebuffer height (`const uint16_t FRAMEBUFFER_HEIGHT = V_VISIBLE = 240`). -/
def FRAMEBUFFER_HEIGHT : Nat := 240

/-- DRAM row count (`const uint16_t DRAM_ROWS = 512`). -/
def DRAM_ROWS : Nat := 512

/-- DRAM column count (`const uint16_t DRAM_COLS = 512`). -/
def DRAM_COLS : Nat := 512

/-- Ring capacity (`#define MAX_UPDATE_BUFFER_SIZE 512`). -/
def MAX_UPDATE_BUFFER_SIZE : Nat := 512

/-- One pending pixel write request (`struct PixelUpdate { uint16_t x; uint16_t y; uint8_t color; }`). -/
structure PixelUpdate where
  x : Nat
  y : Nat
  color : Nat
deriving DecidableEq, Repr

/-- The mutable globals of `mega_edo_fb8_320x240_fix.ino` that the claims are
about.  `dram` is the cell array of the MSM514262 chip addressed by
`(row, col)` at the protocol level of `writeDRAM`; `refresh_events` counts the
executions of `refreshDRAM()` (a CAS-before-RAS sweep of all rows preserves
stored data in a decay-free model, so an event counter is the observable). -/
structure SystemState where
  update_buffer : Nat → PixelUpdate
  update_buffer_write_index : Nat
  update_buffer_read_index : Nat
  buffer_overflow : Bool
  dram : Nat → Nat → Nat
  current_scanline : Nat
  current_video_line : Nat
  vblank_active : Bool
  frame_count : Nat
  timing_error : Bool
  refresh_events : Nat

/-- The state at program start: all counters and flags zeroed, the update
buffer zero-initialised (C zero-initialises file-scope arrays), the DRAM
cleared by the `clearFramebuffer(0x00)` call in `setup()`. -/
def initState : SystemState where
  update_buffer := fun _ => ⟨0, 0, 0⟩
  update_buffer_write_index := 0
  update_buffer_read_index := 0
  buffer_overflow := false
  dram := fun _ _ => 0
  current_scanline := 0
  current_video_line := 0
  vblank_active := false
  frame_count := 0
  timing_error := false
  refresh_events := 0

/-- Embedding of `writeDRAM(row, col, color)`.  The cycle drives only the four
data pins DQ0-DQ3 (`DATA_PORT_DDR = 0x0F`), so the addressed cell receives the
low four bits of `color`; every other cell is untouched. -/
def writeDRAM (d : Nat → Nat → Nat) (row col color : Nat) : Nat → Nat → Nat :=
  fun r c => if r = row ∧ c = col then color % 16 else d r c

/-- Embedding of `refreshDRAM()`: a CAS-before-RAS refresh of all `DRAM_ROWS`
rows.  It does not change any stored value; the event counter records that a
full-array refresh happened. -/
def refreshDRAM (s : SystemState) : SystemState :=
  { s with refresh_events := s.refresh_events + 1 }

/-- Embedding of `drawPixel(x, y, color)` from `mega_edo_fb8_320x240_fix.ino`
(lines 235-256).  Arguments are the `uint16_t`/`uint8_t` machine values.
Returns the updated globals and the `bool` result. -/
def drawPixel (s : SystemState) (x y color : Nat) : SystemState × Bool :=
  if FRAMEBUFFER_WIDTH ≤ x ∨ FRAMEBUFFER_HEIGHT ≤ y then
    (s, false)
  else
    let next_index := (s.update_buffer_write_index + 1) % MAX_UPDATE_BUFFER_SIZE
    if next_index = s.update_buffer_read_index then
      ({ s with buffer_overflow := true }, false)
    else
      ({ s with
          update_buffer := fun i =>
            if i = s.update_buffer_write_index then ⟨x, y, color⟩ else s.update_buffer i,
          update_buffer_write_index := next_index }, true)

/-- The 32-bit linear pixel index computed in `applyBufferUpdates`:
`uint32_t pixel_index = (uint32_t)update->y * FRAMEBUFFER_WIDTH + update->x`. -/
def pixel_index (u : PixelUpdate) : Nat :=
  (u.y * FRAMEBUFFER_WIDTH + u.x) % 2 ^ 32

/-- `uint16_t dram_row = pixel_index / DRAM_COLS` (truncated to 16 bits). -/
def dram_row_of (u : PixelUpdate) : Nat :=
  (pixel_index u / DRAM_COLS) % 2 ^ 16

/-- `uint16_t dram_col = pixel_index % DRAM_COLS` (truncated to 16 bits). -/
def dram_col_of (u : PixelUpdate) : Nat :=
  (pixel_index u % DRAM_COLS) % 2 ^ 16

/-- One iteration of the `while` loop of `applyBufferUpdates`: pop the oldest
unread entry, write it through to DRAM, advance the read index. -/
def drainStep (s : SystemState) : SystemState :=
  let u := s.update_buffer s.update_buffer_read_index
  { s with
      dram := writeDRAM s.dram (dram_row_of u) (dram_col_of u) u.color,
      update_buffer_read_index :=
        (s.update_buffer_read_index + 1) % MAX_UPDATE_BUFFER_SIZE }

/-- Fuel-indexed unfolding of the `while (read_index != write_index)` loop. -/
def drainAux : Nat → SystemState → SystemState
  | 0, s => s
  | fuel + 1, s =>
      if s.update_buffer_read_index = s.update_buffer_write_index then s
      else drainAux fuel (drainStep s)

/-- Embedding of `applyBufferUpdates()` (lines 273-285).  With both indices
below `MAX_UPDATE_BUFFER_SIZE` the loop runs at most
`MAX_UPDATE_BUFFER_SIZE - 1` times, so `MAX_UPDATE_BUFFER_SIZE` units of fuel
compute exactly the C loop. -/
def applyBufferUpdates (s : SystemState) : SystemState :=
  drainAux MAX_UPDATE_BUFFER_SIZE s

/-- Embedding of the frame-boundary handler `ISR(TIMER5_COMPA_vect)`
(lines 336-352): increment the 32-bit frame counter, drain the update queue,
refresh all DRAM rows only when `(frame_count & 0x3F) == 0`, then reset the
per-frame counters. -/
def vsyncISR (s : SystemState) : SystemState :=
  let s1 := { s with
      frame_count := (s.frame_count + 1) % 2 ^ 32,
      vblank_active := true }
  let s2 := applyBufferUpdates s1
  let s3 := if s2.frame_count % 64 = 0 then refreshDRAM s2 else s2
  { s3 with
      current_scanline := 0,
      current_video_line := 0,
      vblank_active := false }

/-- The active-line predicate evaluated by the line interrupt handler
`ISR(TIMER1_COMPA_vect)` (lines 317-318):
`current_scanline >= (V_FRONT_PORCH + V_SYNC_PULSE + V_BACK_PORCH) &&
 current_scanline < (V_TOTAL - V_FRONT_PORCH)`. -/
def activeLinePredicate (line : Nat) : Bool :=
  decide (V_FRONT_PORCH + V_SYNC_PULSE + V_BACK_PORCH ≤ line) &&
  decide (line < V_TOTAL - V_FRONT_PORCH)

/-- Number of unread entries in the ring, `(write_index - read_index) mod MAX`. -/
def unreadCount (s : SystemState) : Nat :=
  (s.update_buffer_write_index + MAX_UPDATE_BUFFER_SIZE - s.update_buffer_read_index)
    % MAX_UPDATE_BUFFER_SIZE

/-- Run a sequence of `drawPixel` calls; returns the final state and the
number of calls that returned `false`. -/
def runDraw : SystemState → List PixelUpdate → SystemState × Nat
  | s, [] => (s, 0)
  | s, u :: rest =>
      let r := drawPixel s u.x u.y u.color
      let t := runDraw r.1 rest
      (t.1, (if r.2 then 0 else 1) + t.2)

/-- The last entry of `us` whose DRAM cell is `(row, col)`, if any.  Used to
state last-write-wins for the drain. -/
def lastMatch (row col : Nat) : List PixelUpdate → Option PixelUpdate
  | [] => none
  | u :: rest =>
      match lastMatch row col rest with
      | some v => some v
      | none =>
          if dram_row_of u = row ∧ dram_col_of u = col then some u else none

/-- States reachable from power-up through the operations that touch the ring:
the producer API `drawPixel`, the vblank drain, and the frame handler. -/
inductive Reachable : SystemState → Prop where
  | init : Reachable initState
  | draw (s : SystemState) (x y color : Nat) :
      Reachable s → Reachable (drawPixel s x y color).1
  | drain (s : SystemState) :
      Reachable s → Reachable (applyBufferUpdates s)
  | vsync (s : SystemState) :
      Reachable s → Reachable (vsyncISR s)

end Fb8

namespace Fp6

/-- Framebuffer width of `mega_edo_fp6.ino` (`const int FRAMEBUFFER_WIDTH = 256`). -/
def FRAMEBUFFER_WIDTH : Nat := 256

/-- Framebuffer height of `mega_edo_fp6.ino` (`const int FRAMEBUFFER_HEIGHT = 256`). -/
def FRAMEBUFFER_HEIGHT : Nat := 256

/-- DRAM column count of `mega_edo_fp6.ino` (`const int DRAM_COLS = 512`). -/
def DRAM_COLS : Nat := 512

/-- The linear index computed in `applyBufferToDRAM`:
`unsigned int pixelIndex = update.y * FRAMEBUFFER_WIDTH + update.x`, on the
16-bit `unsigned int` of the AVR target. -/
def pixelIndex (x y : Nat) : Nat :=
  (y * FRAMEBUFFER_WIDTH + x) % 2 ^ 16

/-- `unsigned int dramRow = pixelIndex / DRAM_COLS`. -/
def dramRow (x y : Nat) : Nat := pixelIndex x y / DRAM_COLS

/-- `unsigned int dramCol = pixelIndex % DRAM_COLS`. -/
def dramCol (x y : Nat) : Nat := pixelIndex x y % DRAM_COLS

end Fp6

namespace P2

/-- DRAM row count of `src/unnamed/part_002` (`const int DRAM_ROWS = 512`). -/
def DRAM_ROWS : Nat := 512

/-- DRAM column count of `src/unnamed/part_002` (`const int DRAM_COLS = 512`). -/
def DRAM_COLS : Nat := 512

/-- Embedding of `writeDram(row, col, data)` of `src/unnamed/part_002`.
Modelled from the spec: the DRAM chip cell array is hardware, so its storage
behaviour (each cell holds one 4-bit value written by the protocol and
retrievable until decay) comes from the spec data model; the pin protocol in
the source fixes the rest of the embedding: `setAddress` drives nine address
lines, so the chip sees `row % 512` and `col % 512`, and `writeDataBus`
drives four data lines, so the cell receives `data % 16`. -/
def writeDram (d : Nat → Nat → Nat) (row col data : Nat) : Nat → Nat → Nat :=
  fun r c => if r = row % 512 ∧ c = col % 512 then data % 16 else d r c

/-- Embedding of `readDram(row, col)` of `src/unnamed/part_002`: the cycle
addresses the cell through the same nine address lines and `readDataBus`
assembles the four data pins, so the returned value is the low four bits of
the addressed cell. -/
def readDram (d : Nat → Nat → Nat) (row col : Nat) : Nat :=
  d (row % 512) (col % 512) % 16

end P2

namespace Opt

/-- Refresh interval of `src/dram/511000_opt.ino`
(`const unsigned long refreshInterval = 250`, microseconds). -/
def refreshInterval : Nat := 250

/-- State of the refresh scheduler of `src/dram/511000_opt.ino`: the recorded
`lastRefreshMicros` timestamp and a log of full-array sweeps, newest first;
each sweep lists the rows refreshed by `refreshAllRows()` (its `for` loop
covers rows `0..255`). -/
structure OptState where
  lastRefreshMicros : Nat
  refreshHistory : List (List Nat)
deriving DecidableEq, Repr

/-- Embedding of `refreshAllRows()`: one RAS-only refresh cycle per row in
`0..255`; the timestamp is not touched. -/
def refreshAllRows (s : OptState) : OptState :=
  { s with refreshHistory := List.range 256 :: s.refreshHistory }

/-- The 32-bit unsigned subtraction `now - lastRefreshMicros` of the source
(`unsigned long` wraparound arithmetic, exact for `now, last < 2 ^ 32`). -/
def elapsedMicros (now last : Nat) : Nat :=
  (now + 2 ^ 32 - last) % 2 ^ 32

/-- Embedding of `refreshIfNeeded()` (lines 31-37), with the `micros()` value
passed in as `now`: when the elapsed time reaches the interval it runs
`refreshAllRows()` and records `now`; otherwise it does nothing. -/
def refreshIfNeeded (now : Nat) (s : OptState) : OptState :=
  if refreshInterval ≤ elapsedMicros now s.lastRefreshMicros then
    { refreshAllRows s with lastRefreshMicros := now }
  else s

end Opt

namespace Fb8

/-- Helper: the rejecting branch of `drawPixel` when the ring is full.  The
literal `512` is `MAX_UPDATE_BUFFER_SIZE` by `rfl`. -/
lemma drawPixel_full (s : SystemState) (x y color : Nat)
    (hx : x < FRAMEBUFFER_WIDTH) (hy : y < FRAMEBUFFER_HEIGHT)
    (hfull : (s.update_buffer_write_index + 1) % 512 =
      s.update_buffer_read_index) :
    drawPixel s x y color = ({ s with buffer_overflow := true }, false) := by
  unfold drawPixel
  simp [Nat.not_le.mpr hx, Nat.not_le.mpr hy, MAX_UPDATE_BUFFER_SIZE, hfull]

/-- Helper: the accepting branch of `drawPixel` when the ring has room.  The
literal `512` is `MAX_UPDATE_BUFFER_SIZE` by `rfl`. -/
lemma drawPixel_ok (s : SystemState) (x y color : Nat)
    (hx : x < FRAMEBUFFER_WIDTH) (hy : y < FRAMEBUFFER_HEIGHT)
    (hroom : (s.update_buffer_write_index + 1) % 512 ≠
      s.update_buffer_read_index) :
    drawPixel s x y color =
      ({ s with
          update_buffer := fun i =>
            if i = s.update_buffer_write_index then ⟨x, y, color⟩
            else s.update_buffer i,
          update_buffer_write_index :=
            (s.update_buffer_write_index + 1) % 512 }, true) := by
  unfold drawPixel
  simp [Nat.not_le.mpr hx, Nat.not_le.mpr hy, MAX_UPDATE_BUFFER_SIZE, hroom]

/-- Master characterisation of a run of enqueues.  Starting from a state whose
ring holds `k` unread entries (`write = (read + k) % 512`, `read < 512`,
`k ≤ 511`), a run over in-range updates `us` accepts the first
`min us.length (511 - k)` of them and rejects the rest: the lemma gives the
exact failure count, the final indices, the ring contents, and the untouched
fields.  The literal `512` is `MAX_UPDATE_BUFFER_SIZE` by `rfl`. -/
lemma runDraw_spec (us : List PixelUpdate) :
    ∀ (s : SystemState) (k : Nat),
    s.update_buffer_write_index = (s.update_buffer_read_index + k) % 512 →
    s.update_buffer_read_index < 512 → k ≤ 511 →
    (∀ u ∈ us, u.x < FRAMEBUFFER_WIDTH ∧ u.y < FRAMEBUFFER_HEIGHT) →
    (runDraw s us).2 = us.length - min us.length (511 - k) ∧
    (runDraw s us).1.update_buffer_read_index = s.update_buffer_read_index ∧
    (runDraw s us).1.update_buffer_write_index =
      (s.update_buffer_read_index + k + min us.length (511 - k)) % 512 ∧
    (runDraw s us).1.dram = s.dram ∧
    (runDraw s us).1.buffer_overflow =
      (s.buffer_overflow || decide (511 - k < us.length)) ∧
    (runDraw s us).1.frame_count = s.frame_count ∧
    (runDraw s us).1.refresh_events = s.refresh_events ∧
    (∀ j u, us[j]? = some u → j < 511 - k →
      (runDraw s us).1.update_buffer
        ((s.update_buffer_read_index + k + j) % 512) = u) ∧
    (∀ i, (∀ j, j < min us.length (511 - k) →
        i ≠ (s.update_buffer_read_index + k + j) % 512) →
      (runDraw s us).1.update_buffer i = s.update_buffer i) := by
  induction us with
  | nil =>
      intro s k hw hr hk _
      have hnl : ¬ (511 - k < ([] : List PixelUpdate).length) := by
        simp
      refine ⟨by simp [runDraw], by simp [runDraw], ?_, by simp [runDraw],
        by simp [runDraw, hnl], by simp [runDraw], by simp [runDraw], ?_, ?_⟩
      · show s.update_buffer_write_index = _
        rw [hw]
        congr 1
        simp only [List.length_nil]
        omega
      · intro j u hj _
        simp at hj
      · intro i _
        simp [runDraw]
  | cons u rest ih =>
      intro s k hw hr hk hin
      obtain ⟨hux, huy⟩ := hin u (List.mem_cons_self u rest)
      have hinr : ∀ v ∈ rest, v.x < FRAMEBUFFER_WIDTH ∧ v.y < FRAMEBUFFER_HEIGHT :=
        fun v hv => hin v (List.mem_cons_of_mem u hv)
      by_cases hke : k = 511
      · -- ring already full: this call and all later ones fail
        subst hke
        have hfull : (s.update_buffer_write_index + 1) % 512 =
            s.update_buffer_read_index := by
          rw [hw]
          omega
        have hstep := drawPixel_full s u.x u.y u.color hux huy hfull
        have hs1 : (drawPixel s u.x u.y u.color).1 =
            { s with buffer_overflow := true } := by
          rw [hstep]
        have hsnd : (drawPixel s u.x u.y u.color).2 = false := by
          rw [hstep]
        have e_read : (drawPixel s u.x u.y u.color).1.update_buffer_read_index =
            s.update_buffer_read_index := by rw [hs1]
        have e_write : (drawPixel s u.x u.y u.color).1.update_buffer_write_index =
            s.update_buffer_write_index := by rw [hs1]
        have e_buf : (drawPixel s u.x u.y u.color).1.update_buffer =
            s.update_buffer := by rw [hs1]
        have e_over : (drawPixel s u.x u.y u.color).1.buffer_overflow = true := by
          rw [hs1]
        have e_dram : (drawPixel s u.x u.y u.color).1.dram = s.dram := by rw [hs1]
        have e_fc : (drawPixel s u.x u.y u.color).1.frame_count = s.frame_count := by
          rw [hs1]
        have e_re : (drawPixel s u.x u.y u.color).1.refresh_events =
            s.refresh_events := by rw [hs1]
        have hrunf : (runDraw s (u :: rest)).1 =
            (runDraw (drawPixel s u.x u.y u.color).1 rest).1 := by
          simp [runDraw]
        have hruns : (runDraw s (u :: rest)).2 =
            1 + (runDraw (drawPixel s u.x u.y u.color).1 rest).2 := by
          simp [runDraw, hsnd]
        obtain ⟨c1, c2, c3, c4, c5, c6, c7, c8, c9⟩ :=
          ih (drawPixel s u.x u.y u.color).1 511
            (by rw [e_write, e_read, hw]) (by rw [e_read]; exact hr)
            (le_refl 511) hinr
        refine ⟨?_, ?_, ?_, ?_, ?_, ?_, ?_, ?_, ?_⟩
        · rw [hruns, c1]
          simp only [List.length_cons]
          omega
        · rw [hrunf, c2, e_read]
        · rw [hrunf, c3, e_read]
          congr 1
          simp only [List.length_cons]
          omega
        · rw [hrunf, c4, e_dram]
        · rw [hrunf, c5, e_over]
          have h1 : (511 - 511 < (u :: rest).length) := by
            simp only [List.length_cons]
            omega
          simp [h1]
        · rw [hrunf, c6, e_fc]
        · rw [hrunf, c7, e_re]
        · intro j v hj hjlt
          have : False := by omega
          exact this.elim
        · intro i hi
          rw [hrunf, c9 i ?_, e_buf]
          intro j2 hj2
          have : False := by
            simp only [Nat.sub_self, Nat.min_zero] at hj2
            omega
          exact this.elim
      · -- k < 511 : this call is accepted
        have hklt : k < 511 := lt_of_le_of_ne hk hke
        have hroom : (s.update_buffer_write_index + 1) % 512 ≠
            s.update_buffer_read_index := by
          rw [hw]
          omega
        have hstep := drawPixel_ok s u.x u.y u.color hux huy hroom
        have hs1 : (drawPixel s u.x u.y u.color).1 =
            { s with
                update_buffer := fun i =>
                  if i = s.update_buffer_write_index then ⟨u.x, u.y, u.color⟩
                  else s.update_buffer i,
                update_buffer_write_index :=
                  (s.update_buffer_write_index + 1) % 512 } := by
          rw [hstep]
        have hsnd : (drawPixel s u.x u.y u.color).2 = true := by
          rw [hstep]
        have e_read : (drawPixel s u.x u.y u.color).1.update_buffer_read_index =
            s.update_buffer_read_index := by rw [hs1]
        have e_write : (drawPixel s u.x u.y u.color).1.update_buffer_write_index =
            (s.update_buffer_write_index + 1) % 512 := by rw [hs1]
        have e_buf : (drawPixel s u.x u.y u.color).1.update_buffer =
            (fun i => if i = s.update_buffer_write_index then
                PixelUpdate.mk u.x u.y u.color
              else s.update_buffer i) := by rw [hs1]
        have e_over : (drawPixel s u.x u.y u.color).1.buffer_overflow =
            s.buffer_overflow := by rw [hs1]
        have e_dram : (drawPixel s u.x u.y u.color).1.dram = s.dram := by rw [hs1]
        have e_fc : (drawPixel s u.x u.y u.color).1.frame_count = s.frame_count := by
          rw [hs1]
        have e_re : (drawPixel s u.x u.y u.color).1.refresh_events =
            s.refresh_events := by rw [hs1]
        have hrunf : (runDraw s (u :: rest)).1 =
            (runDraw (drawPixel s u.x u.y u.color).1 rest).1 := by
          simp [runDraw]
        have hruns : (runDraw s (u :: rest)).2 =
            (runDraw (drawPixel s u.x u.y u.color).1 rest).2 := by
          simp [runDraw, hsnd]
        obtain ⟨c1, c2, c3, c4, c5, c6, c7, c8, c9⟩ :=
          ih (drawPixel s u.x u.y u.color).1 (k + 1)
            (by rw [e_write, e_read, hw]; omega)
            (by rw [e_read]; exact hr) (by omega) hinr
        refine ⟨?_, ?_, ?_, ?_, ?_, ?_, ?_, ?_, ?_⟩
        · rw [hruns, c1]
          simp only [List.length_cons]
          omega
        · rw [hrunf, c2, e_read]
        · rw [hrunf, c3, e_read]
          congr 1
          simp only [List.length_cons]
          omega
        · rw [hrunf, c4, e_dram]
        · rw [hrunf, c5, e_over]
          have h1 : decide (511 - (k + 1) < rest.length) =
              decide (511 - k < (u :: rest).length) := by
            rw [decide_eq_decide]
            simp only [List.length_cons]
            omega
          rw [h1]
        · rw [hrunf, c6, e_fc]
        · rw [hrunf, c7, e_re]
        · -- ring contents: entry j of u :: rest sits at offset k + j
          intro j v hj hjlt
          match j, hj, hjlt with
          | 0, hj, hjlt =>
              simp only [List.getElem?_cons_zero, Option.some_inj] at hj
              subst hj
              have hidx : (s.update_buffer_read_index + k + 0) % 512 =
                  s.update_buffer_write_index := by
                rw [hw]
                congr 1
              rw [hrunf, hidx]
              have hne : ∀ j2, j2 < min rest.length (511 - (k + 1)) →
                  s.update_buffer_write_index ≠
                    ((drawPixel s u.x u.y u.color).1.update_buffer_read_index +
                      (k + 1) + j2) % 512 := by
                intro j2 hj2
                rw [e_read, hw]
                omega
              rw [c9 s.update_buffer_write_index hne, e_buf]
              simp
          | j2 + 1, hj, hjlt =>
              simp only [List.getElem?_cons_succ] at hj
              have harg : (s.update_buffer_read_index + k + (j2 + 1)) % 512 =
                  ((drawPixel s u.x u.y u.color).1.update_buffer_read_index +
                    (k + 1) + j2) % 512 := by
                rw [e_read]
                congr 1
                omega
              rw [hrunf, harg]
              exact c8 j2 v hj (by omega)
        · -- slots outside the written window are untouched
          intro i hi
          have hirec : ∀ j2, j2 < min rest.length (511 - (k + 1)) →
              i ≠ ((drawPixel s u.x u.y u.color).1.update_buffer_read_index +
                (k + 1) + j2) % 512 := by
            intro j2 hj2
            have h0 := hi (j2 + 1) (by simp only [List.length_cons]; omega)
            rw [e_read]
            have harg : (s.update_buffer_read_index + (k + 1) + j2) % 512 =
                (s.update_buffer_read_index + k + (j2 + 1)) % 512 := by
              congr 1
              omega
            rw [harg]
            exact h0
          rw [hrunf, c9 i hirec, e_buf]
          have hi0 : i ≠ s.update_buffer_write_index := by
            have h0 := hi 0 (by simp only [List.length_cons]; omega)
            rw [hw]
            simpa using h0
          simp [hi0]

/-- Drain-loop characterisation: if the ring holds exactly the entries of `us`
(entry `j` at slot `(read + j) % 512`) and the fuel exceeds `us.length`, the
loop pops every entry in order, writing each through to DRAM, and stops with
`read = write`.  All fields other than `dram` and the read index are
untouched. -/
lemma drainAux_spec (us : List PixelUpdate) :
    ∀ (fuel : Nat) (s : SystemState),
    us.length < fuel →
    s.update_buffer_read_index < 512 → us.length ≤ 511 →
    s.update_buffer_write_index = (s.update_buffer_read_index + us.length) % 512 →
    (∀ j u, us[j]? = some u →
      s.update_buffer ((s.update_buffer_read_index + j) % 512) = u) →
    (drainAux fuel s).update_buffer_read_index = s.update_buffer_write_index ∧
    (drainAux fuel s).update_buffer_write_index = s.update_buffer_write_index ∧
    (drainAux fuel s).update_buffer = s.update_buffer ∧
    (drainAux fuel s).buffer_overflow = s.buffer_overflow ∧
    (drainAux fuel s).frame_count = s.frame_count ∧
    (drainAux fuel s).refresh_events = s.refresh_events ∧
    (drainAux fuel s).dram =
      us.foldl (fun d u => writeDRAM d (dram_row_of u) (dram_col_of u) u.color)
        s.dram := by
  induction us with
  | nil =>
      intro fuel s hfuel hr _ hw _
      obtain ⟨f, rfl⟩ : ∃ f, fuel = f + 1 := ⟨fuel - 1, by omega⟩
      have hstop : s.update_buffer_read_index = s.update_buffer_write_index := by
        rw [hw]
        simp only [List.length_nil]
        omega
      simp [drainAux, hstop]
  | cons u rest ih =>
      intro fuel s hfuel hr hlen hw hbuf
      obtain ⟨f, rfl⟩ : ∃ f, fuel = f + 1 := ⟨fuel - 1, by omega⟩
      simp only [List.length_cons] at hfuel hlen hw
      have hne : s.update_buffer_read_index ≠ s.update_buffer_write_index := by
        rw [hw]
        omega
      have hrec : drainAux (f + 1) s = drainAux f (drainStep s) := by
        simp [drainAux, hne]
      have hu0 : s.update_buffer s.update_buffer_read_index = u := by
        have h0 := hbuf 0 u (by simp)
        have hidx : (s.update_buffer_read_index + 0) % 512 =
            s.update_buffer_read_index := by omega
        rw [hidx] at h0
        exact h0
      have hstep : drainStep s = { s with
          dram := writeDRAM s.dram (dram_row_of u) (dram_col_of u) u.color,
          update_buffer_read_index := (s.update_buffer_read_index + 1) % 512 } := by
        simp [drainStep, MAX_UPDATE_BUFFER_SIZE, hu0]
      have e_read : (drainStep s).update_buffer_read_index =
          (s.update_buffer_read_index + 1) % 512 := by rw [hstep]
      have e_write : (drainStep s).update_buffer_write_index =
          s.update_buffer_write_index := by rw [hstep]
      have e_buf : (drainStep s).update_buffer = s.update_buffer := by rw [hstep]
      have e_over : (drainStep s).buffer_overflow = s.buffer_overflow := by
        rw [hstep]
      have e_fc : (drainStep s).frame_count = s.frame_count := by rw [hstep]
      have e_re : (drainStep s).refresh_events = s.refresh_events := by rw [hstep]
      have e_dram : (drainStep s).dram =
          writeDRAM s.dram (dram_row_of u) (dram_col_of u) u.color := by
        rw [hstep]
      obtain ⟨c1, c2, c3, c4, c5, c6, c7⟩ := ih f (drainStep s)
        (by omega)
        (by rw [e_read]; omega)
        (by omega)
        (by rw [e_write, e_read, hw]; omega)
        (by
          intro j v hjv
          rw [e_buf, e_read]
          have h0 := hbuf (j + 1) v (by simpa using hjv)
          have hidx : ((s.update_buffer_read_index + 1) % 512 + j) % 512 =
              (s.update_buffer_read_index + (j + 1)) % 512 := by omega
          rw [hidx]
          exact h0)
      rw [hrec]
      exact ⟨by rw [c1, e_write], by rw [c2, e_write], by rw [c3, e_buf],
        by rw [c4, e_over], by rw [c5, e_fc], by rw [c6, e_re],
        by rw [c7, e_dram, List.foldl_cons]⟩

/-- Folding the per-entry DRAM writes over `us` leaves, at each cell, the low
four bits of the last entry written to that cell, and the old value at cells
no entry maps to. -/
lemma foldl_writeDRAM_get (us : List PixelUpdate) :
    ∀ (d : Nat → Nat → Nat) (row col : Nat),
    us.foldl (fun d u => writeDRAM d (dram_row_of u) (dram_col_of u) u.color)
        d row col =
      match lastMatch row col us with
      | some v => v.color % 16
      | none => d row col := by
  induction us with
  | nil =>
      intro d row col
      simp [lastMatch]
  | cons u rest ih =>
      intro d row col
      rw [List.foldl_cons, ih]
      cases hlm : lastMatch row col rest with
      | some v => simp [lastMatch, hlm]
      | none =>
          simp only [lastMatch, hlm]
          by_cases hc : dram_row_of u = row ∧ dram_col_of u = col
          · rw [if_pos hc]
            simp only [writeDRAM]
            rw [if_pos ⟨hc.1.symm, hc.2.symm⟩]
          · rw [if_neg hc]
            simp only [writeDRAM]
            rw [if_neg (fun h => hc ⟨h.1.symm, h.2.symm⟩)]

/-- If no entry of `us` maps to `(row, col)` then `lastMatch` finds nothing. -/
lemma lastMatch_eq_none (row col : Nat) (us : List PixelUpdate)
    (h : ∀ u ∈ us, ¬(dram_row_of u = row ∧ dram_col_of u = col)) :
    lastMatch row col us = none := by
  induction us with
  | nil => rfl
  | cons u rest ih =>
      have hr : lastMatch row col rest = none :=
        ih (fun v hv => h v (List.mem_cons_of_mem u hv))
      simp [lastMatch, hr, h u (List.mem_cons_self u rest)]

/-- If `us[i] = u` and no later entry maps to the cell of `u`, then
`lastMatch` at that cell finds exactly `u`. -/
lemma lastMatch_of_last (us : List PixelUpdate) :
    ∀ (i : Nat) (u : PixelUpdate), us[i]? = some u →
    (∀ j v, us[j]? = some v → i < j →
      ¬(dram_row_of v = dram_row_of u ∧ dram_col_of v = dram_col_of u)) →
    lastMatch (dram_row_of u) (dram_col_of u) us = some u := by
  induction us with
  | nil =>
      intro i u hi
      simp at hi
  | cons w rest ih =>
      intro i u hi hlater
      cases i with
      | zero =>
          simp only [List.getElem?_cons_zero, Option.some_inj] at hi
          subst hi
          have hnone : lastMatch (dram_row_of w) (dram_col_of w) rest = none := by
            apply lastMatch_eq_none
            intro v hv
            obtain ⟨j, hj⟩ := List.mem_iff_getElem?.mp hv
            exact hlater (j + 1) v (by simpa using hj) (by omega)
          simp [lastMatch, hnone]
      | succ i2 =>
          simp only [List.getElem?_cons_succ] at hi
          have hlater2 : ∀ j v, rest[j]? = some v → i2 < j →
              ¬(dram_row_of v = dram_row_of u ∧
                dram_col_of v = dram_col_of u) := by
            intro j v hj hlt
            exact hlater (j + 1) v (by simpa using hj) (by omega)
          have hrec := ih i2 u hi hlater2
          simp [lastMatch, hrec]

/-- With the pixel in range, the machine truncations in `dram_row_of` are
identities: the computed row is the mathematical `(y * width + x) / 512`. -/
lemma dram_row_of_inrange (u : PixelUpdate)
    (hx : u.x < FRAMEBUFFER_WIDTH) (hy : u.y < FRAMEBUFFER_HEIGHT) :
    dram_row_of u = (u.y * 320 + u.x) / 512 := by
  unfold dram_row_of pixel_index DRAM_COLS FRAMEBUFFER_WIDTH at *
  unfold FRAMEBUFFER_HEIGHT at hy
  have h32 : (2 : Nat) ^ 32 = 4294967296 := by norm_num
  have h16 : (2 : Nat) ^ 16 = 65536 := by norm_num
  rw [h32, h16]
  omega

/-- With the pixel in range, the computed column is the mathematical
`(y * width + x) % 512`. -/
lemma dram_col_of_inrange (u : PixelUpdate)
    (hx : u.x < FRAMEBUFFER_WIDTH) (hy : u.y < FRAMEBUFFER_HEIGHT) :
    dram_col_of u = (u.y * 320 + u.x) % 512 := by
  unfold dram_col_of pixel_index DRAM_COLS FRAMEBUFFER_WIDTH at *
  unfold FRAMEBUFFER_HEIGHT at hy
  have h32 : (2 : Nat) ^ 32 = 4294967296 := by norm_num
  have h16 : (2 : Nat) ^ 16 = 65536 := by norm_num
  rw [h32, h16]
  omega

/-- Distinct in-range pixels map to distinct DRAM cells: the address map of
`applyBufferUpdates` is injective on the framebuffer domain. -/
lemma dram_cell_inj (u v : PixelUpdate)
    (hux : u.x < FRAMEBUFFER_WIDTH) (huy : u.y < FRAMEBUFFER_HEIGHT)
    (hvx : v.x < FRAMEBUFFER_WIDTH) (hvy : v.y < FRAMEBUFFER_HEIGHT)
    (hrow : dram_row_of v = dram_row_of u) (hcol : dram_col_of v = dram_col_of u) :
    v.x = u.x ∧ v.y = u.y := by
  rw [dram_row_of_inrange v hvx hvy, dram_row_of_inrange u hux huy] at hrow
  rw [dram_col_of_inrange v hvx hvy, dram_col_of_inrange u hux huy] at hcol
  unfold FRAMEBUFFER_WIDTH at hux hvx
  unfold FRAMEBUFFER_HEIGHT at huy hvy
  omega

/-- `drawPixel` never moves the read index (it is consumer-owned). -/
lemma drawPixel_read_eq (s : SystemState) (x y color : Nat) :
    (drawPixel s x y color).1.update_buffer_read_index =
      s.update_buffer_read_index := by
  unfold drawPixel
  by_cases h1 : FRAMEBUFFER_WIDTH ≤ x ∨ FRAMEBUFFER_HEIGHT ≤ y
  · simp [h1]
  · by_cases h2 : (s.update_buffer_write_index + 1) % MAX_UPDATE_BUFFER_SIZE =
        s.update_buffer_read_index
    · simp [h1, h2]
    · simp [h1, h2]

/-- After any `drawPixel` call the write index is below the ring capacity. -/
lemma drawPixel_write_lt (s : SystemState) (x y color : Nat)
    (h : s.update_buffer_write_index < 512) :
    (drawPixel s x y color).1.update_buffer_write_index < 512 := by
  unfold drawPixel
  by_cases h1 : FRAMEBUFFER_WIDTH ≤ x ∨ FRAMEBUFFER_HEIGHT ≤ y
  · simpa [h1] using h
  · by_cases h2 : (s.update_buffer_write_index + 1) % MAX_UPDATE_BUFFER_SIZE =
        s.update_buffer_read_index
    · simpa [h1, h2] using h
    · have h2b : (s.update_buffer_write_index + 1) % 512 ≠
          s.update_buffer_read_index := h2
      simp [h1, h2b, MAX_UPDATE_BUFFER_SIZE]
      omega

/-- The drain loop touches only the DRAM image and the read index. -/
lemma drainAux_preserves : ∀ (fuel : Nat) (s : SystemState),
    (drainAux fuel s).update_buffer_write_index = s.update_buffer_write_index ∧
    (drainAux fuel s).update_buffer = s.update_buffer ∧
    (drainAux fuel s).buffer_overflow = s.buffer_overflow ∧
    (drainAux fuel s).frame_count = s.frame_count ∧
    (drainAux fuel s).refresh_events = s.refresh_events := by
  intro fuel
  induction fuel with
  | zero => intro s; exact ⟨rfl, rfl, rfl, rfl, rfl⟩
  | succ f ih =>
      intro s
      unfold drainAux
      by_cases h : s.update_buffer_read_index = s.update_buffer_write_index
      · simp [h]
      · simp only [h, if_false]
        obtain ⟨i1, i2, i3, i4, i5⟩ := ih (drainStep s)
        exact ⟨i1, i2, i3, i4, i5⟩

/-- The drain loop keeps the read index below the ring capacity. -/
lemma drainAux_read_lt : ∀ (fuel : Nat) (s : SystemState),
    s.update_buffer_read_index < 512 →
    (drainAux fuel s).update_buffer_read_index < 512 := by
  intro fuel
  induction fuel with
  | zero => intro s h; exact h
  | succ f ih =>
      intro s h
      unfold drainAux
      by_cases he : s.update_buffer_read_index = s.update_buffer_write_index
      · simpa [he] using h
      · simp only [he, if_false]
        apply ih
        show (s.update_buffer_read_index + 1) % 512 < 512
        omega

/-- With both indices in range, `MAX_UPDATE_BUFFER_SIZE` units of fuel always
suffice for the drain loop to reach `read = write` (the ring never holds more
than `511` unread entries). -/
lemma drainAux_empties : ∀ (fuel : Nat) (s : SystemState),
    s.update_buffer_read_index < 512 → s.update_buffer_write_index < 512 →
    (s.update_buffer_write_index + 512 - s.update_buffer_read_index) % 512 < fuel →
    (drainAux fuel s).update_buffer_read_index =
      (drainAux fuel s).update_buffer_write_index := by
  intro fuel
  induction fuel with
  | zero =>
      intro s _ _ hocc
      omega
  | succ f ih =>
      intro s hr hw hocc
      unfold drainAux
      by_cases he : s.update_buffer_read_index = s.update_buffer_write_index
      · simpa [he] using he
      · simp only [he, if_false]
        apply ih
        · show (s.update_buffer_read_index + 1) % 512 < 512
          omega
        · show s.update_buffer_write_index < 512
          exact hw
        · show (s.update_buffer_write_index + 512 -
            (s.update_buffer_read_index + 1) % 512) % 512 < f
          omega

/-- In every reachable state both ring indices are below the capacity. -/
lemma reachable_indices_lt : ∀ s : SystemState, Reachable s →
    s.update_buffer_read_index < 512 ∧ s.update_buffer_write_index < 512 := by
  intro s h
  induction h with
  | init => exact ⟨by decide, by decide⟩
  | draw s x y color hs ih =>
      refine ⟨?_, drawPixel_write_lt s x y color ih.2⟩
      rw [drawPixel_read_eq]
      exact ih.1
  | drain s hs ih =>
      constructor
      · exact drainAux_read_lt 512 s ih.1
      · have hw : (applyBufferUpdates s).update_buffer_write_index =
            s.update_buffer_write_index := (drainAux_preserves 512 s).1
        rw [hw]
        exact ih.2
  | vsync s hs ih =>
      constructor
      · show (vsyncISR s).update_buffer_read_index < 512
        unfold vsyncISR
        by_cases hc : (applyBufferUpdates { s with
            frame_count := (s.frame_count + 1) % 2 ^ 32,
            vblank_active := true }).frame_count % 64 = 0
        · simp only [hc, if_true, refreshDRAM]
          exact drainAux_read_lt 512 _ ih.1
        · simp only [hc, if_false]
          exact drainAux_read_lt 512 _ ih.1
      · show (vsyncISR s).update_buffer_write_index < 512
        unfold vsyncISR
        by_cases hc : (applyBufferUpdates { s with
            frame_count := (s.frame_count + 1) % 2 ^ 32,
            vblank_active := true }).frame_count % 64 = 0
        · simp only [hc, if_true, refreshDRAM]
          have hw := (drainAux_preserves 512 { s with
            frame_count := (s.frame_count + 1) % 2 ^ 32,
            vblank_active := true }).1
          show (drainAux 512 { s with
            frame_count := (s.frame_count + 1) % 2 ^ 32,
            vblank_active := true }).update_buffer_write_index < 512
          rw [hw]
          exact ih.2
        · simp only [hc, if_false]
          have hw := (drainAux_preserves 512 { s with
            frame_count := (s.frame_count + 1) % 2 ^ 32,
            vblank_active := true }).1
          show (drainAux 512 { s with
            frame_count := (s.frame_count + 1) % 2 ^ 32,
            vblank_active := true }).update_buffer_write_index < 512
          rw [hw]
          exact ih.2

end Fb8

/-- C1: the line interrupt handler of `mega_edo_fb8_320x240_fix.ino` evaluates
its active-line predicate as `25 <= line < V_TOTAL - V_FRONT_PORCH = 263`, so
only `238` of the `265` line values are active.  Lines `263` and `264` lie in
the claimed active range `[25, 25 + 240)` yet the predicate is false there:
the code contradicts its configured `V_VISIBLE = 240` (the last two
framebuffer rows are never streamed). -/
theorem activeLine_window_is_238_not_240 :
    Fb8.activeLinePredicate 263 = false ∧
    Fb8.activeLinePredicate 264 = false ∧
    (25 ≤ 263 ∧ 263 < 25 + Fb8.V_VISIBLE) ∧
    ((List.range Fb8.V_TOTAL).filter Fb8.activeLinePredicate).length = 238 ∧
    Fb8.V_VISIBLE = 240 := by
  decide

/-- C2: for an in-range pixel, if advancing the write index would collide with
the read index (ring full) then `drawPixel` sets the sticky overflow flag and
fails, leaving both indices and every ring entry untouched; otherwise it
stores `{x, y, color}` at the current write slot, advances the write index by
one modulo the capacity, and succeeds, leaving the read index, the other ring
entries, and the flags untouched. -/
theorem drawPixel_enqueue_spec (s : Fb8.SystemState) (x y color : Nat)
    (hx : x < Fb8.FRAMEBUFFER_WIDTH) (hy : y < Fb8.FRAMEBUFFER_HEIGHT) :
    ((s.update_buffer_write_index + 1) % Fb8.MAX_UPDATE_BUFFER_SIZE =
        s.update_buffer_read_index →
      Fb8.drawPixel s x y color = ({ s with buffer_overflow := true }, false)) ∧
    ((s.update_buffer_write_index + 1) % Fb8.MAX_UPDATE_BUFFER_SIZE ≠
        s.update_buffer_read_index →
      (Fb8.drawPixel s x y color).2 = true ∧
      (Fb8.drawPixel s x y color).1.update_buffer s.update_buffer_write_index =
        ⟨x, y, color⟩ ∧
      (∀ i, i ≠ s.update_buffer_write_index →
        (Fb8.drawPixel s x y color).1.update_buffer i = s.update_buffer i) ∧
      (Fb8.drawPixel s x y color).1.update_buffer_write_index =
        (s.update_buffer_write_index + 1) % Fb8.MAX_UPDATE_BUFFER_SIZE ∧
      (Fb8.drawPixel s x y color).1.update_buffer_read_index =
        s.update_buffer_read_index ∧
      (Fb8.drawPixel s x y color).1.buffer_overflow = s.buffer_overflow ∧
      (Fb8.drawPixel s x y color).1.dram = s.dram) := by
  constructor
  · intro hfull
    unfold Fb8.drawPixel
    simp [Nat.not_le.mpr hx, Nat.not_le.mpr hy, hfull]
  · intro hroom
    unfold Fb8.drawPixel
    simp [Nat.not_le.mpr hx, Nat.not_le.mpr hy, hroom]
    intro i hi
    simp [hi]

/-- Witness for C2 at `(x, y, color) = (3, 4, 9)` from the initial state,
where the ring is not full. -/
theorem drawPixel_enqueue_spec_witness :
    (3 < Fb8.FRAMEBUFFER_WIDTH ∧ 4 < Fb8.FRAMEBUFFER_HEIGHT) ∧
    ((Fb8.initState.update_buffer_write_index + 1) % Fb8.MAX_UPDATE_BUFFER_SIZE ≠
        Fb8.initState.update_buffer_read_index →
      (Fb8.drawPixel Fb8.initState 3 4 9).2 = true ∧
      (Fb8.drawPixel Fb8.initState 3 4 9).1.update_buffer
          Fb8.initState.update_buffer_write_index = ⟨3, 4, 9⟩ ∧
      (∀ i, i ≠ Fb8.initState.update_buffer_write_index →
        (Fb8.drawPixel Fb8.initState 3 4 9).1.update_buffer i =
          Fb8.initState.update_buffer i) ∧
      (Fb8.drawPixel Fb8.initState 3 4 9).1.update_buffer_write_index =
        (Fb8.initState.update_buffer_write_index + 1) % Fb8.MAX_UPDATE_BUFFER_SIZE ∧
      (Fb8.drawPixel Fb8.initState 3 4 9).1.update_buffer_read_index =
        Fb8.initState.update_buffer_read_index ∧
      (Fb8.drawPixel Fb8.initState 3 4 9).1.buffer_overflow =
        Fb8.initState.buffer_overflow ∧
      (Fb8.drawPixel Fb8.initState 3 4 9).1.dram = Fb8.initState.dram) :=
  ⟨⟨by decide, by decide⟩,
   (drawPixel_enqueue_spec Fb8.initState 3 4 9 (by decide) (by decide)).2⟩

/-- C3: starting from an empty ring, after a sequence of in-range enqueues
that are all accepted and one drain: the ring is empty, the DRAM cell of each
enqueued pixel holds the color of the last enqueue for that pixel
(last-write-wins), and every other DRAM cell is unchanged. -/
theorem enqueues_then_drain_last_write_wins
    (us : List Fb8.PixelUpdate) (s0 : Fb8.SystemState)
    (hempty : s0.update_buffer_read_index = s0.update_buffer_write_index)
    (hr : s0.update_buffer_read_index < Fb8.MAX_UPDATE_BUFFER_SIZE)
    (hin : ∀ u ∈ us, u.x < Fb8.FRAMEBUFFER_WIDTH ∧
      u.y < Fb8.FRAMEBUFFER_HEIGHT ∧ u.color < 16)
    (hacc : (Fb8.runDraw s0 us).2 = 0) :
    (Fb8.applyBufferUpdates (Fb8.runDraw s0 us).1).update_buffer_read_index =
      (Fb8.applyBufferUpdates (Fb8.runDraw s0 us).1).update_buffer_write_index ∧
    (∀ (i : Nat) (u : Fb8.PixelUpdate), us[i]? = some u →
      (∀ (j : Nat) (v : Fb8.PixelUpdate), us[j]? = some v → i < j →
        ¬(v.x = u.x ∧ v.y = u.y)) →
      (Fb8.applyBufferUpdates (Fb8.runDraw s0 us).1).dram
        (Fb8.dram_row_of u) (Fb8.dram_col_of u) = u.color) ∧
    (∀ row col,
      (∀ u ∈ us, ¬(Fb8.dram_row_of u = row ∧ Fb8.dram_col_of u = col)) →
      (Fb8.applyBufferUpdates (Fb8.runDraw s0 us).1).dram row col =
        s0.dram row col) := by
  have hr512 : s0.update_buffer_read_index < 512 := hr
  have hin2 : ∀ u ∈ us, u.x < Fb8.FRAMEBUFFER_WIDTH ∧
      u.y < Fb8.FRAMEBUFFER_HEIGHT :=
    fun u hu => ⟨(hin u hu).1, (hin u hu).2.1⟩
  have hw0 : s0.update_buffer_write_index = (s0.update_buffer_read_index + 0) % 512 := by
    rw [← hempty]
    omega
  obtain ⟨c1, c2, c3, c4, c5, c6, c7, c8, c9⟩ :=
    Fb8.runDraw_spec us s0 0 hw0 hr512 (by omega) hin2
  have hlen : us.length ≤ 511 := by
    rw [c1] at hacc
    omega
  have hmin : min us.length (511 - 0) = us.length := by omega
  rw [hmin] at c3
  have hwrite1 : (Fb8.runDraw s0 us).1.update_buffer_write_index =
      ((Fb8.runDraw s0 us).1.update_buffer_read_index + us.length) % 512 := by
    simp only [c3, c2]
    omega
  have hbuf1 : ∀ j u, us[j]? = some u →
      (Fb8.runDraw s0 us).1.update_buffer
        (((Fb8.runDraw s0 us).1.update_buffer_read_index + j) % 512) = u := by
    intro j u hj
    have hjlen : j < us.length := by
      by_contra hcon
      rw [List.getElem?_eq_none (by omega)] at hj
      cases hj
    have h0 := c8 j u hj (by omega)
    rw [c2]
    have hidx : (s0.update_buffer_read_index + j) % 512 =
        (s0.update_buffer_read_index + 0 + j) % 512 := by
      omega
    rw [hidx]
    exact h0
  obtain ⟨d1, d2, d3, d4, d5, d6, d7⟩ :=
    Fb8.drainAux_spec us 512 (Fb8.runDraw s0 us).1
      (by omega) (by rw [c2]; exact hr512) hlen hwrite1 hbuf1
  refine ⟨?_, ?_, ?_⟩
  · show (Fb8.drainAux 512 (Fb8.runDraw s0 us).1).update_buffer_read_index = _
    rw [d1]
    exact d2.symm
  · intro i u hi hlater
    have humem : u ∈ us := List.mem_iff_getElem?.mpr ⟨i, hi⟩
    obtain ⟨hux, huy, hucol⟩ := hin u humem
    have hlater2 : ∀ j v, us[j]? = some v → i < j →
        ¬(Fb8.dram_row_of v = Fb8.dram_row_of u ∧
          Fb8.dram_col_of v = Fb8.dram_col_of u) := by
      intro j v hj hlt hcell
      have hvmem : v ∈ us := List.mem_iff_getElem?.mpr ⟨j, hj⟩
      obtain ⟨hvx, hvy, _⟩ := hin v hvmem
      exact hlater j v hj hlt
        (Fb8.dram_cell_inj u v hux huy hvx hvy hcell.1 hcell.2)
    have hlm := Fb8.lastMatch_of_last us i u hi hlater2
    show (Fb8.drainAux 512 (Fb8.runDraw s0 us).1).dram _ _ = _
    rw [d7, c4, Fb8.foldl_writeDRAM_get, hlm]
    show u.color % 16 = u.color
    omega
  · intro row col hnone
    have hlm := Fb8.lastMatch_eq_none row col us hnone
    show (Fb8.drainAux 512 (Fb8.runDraw s0 us).1).dram _ _ = _
    rw [d7, c4, Fb8.foldl_writeDRAM_get, hlm]

/-- Witness for C3: three enqueues, two of them to pixel `(1, 0)`, from the
initial state.  After the drain the ring is empty, the cell of `(1, 0)` holds
the last color `7`, and the untouched cell `(0, 0)` keeps its old value. -/
theorem enqueues_then_drain_last_write_wins_witness :
    ((Fb8.initState.update_buffer_read_index =
        Fb8.initState.update_buffer_write_index) ∧
      Fb8.initState.update_buffer_read_index < Fb8.MAX_UPDATE_BUFFER_SIZE ∧
      (∀ u ∈ ([⟨1, 0, 3⟩, ⟨2, 0, 5⟩, ⟨1, 0, 7⟩] : List Fb8.PixelUpdate),
        u.x < Fb8.FRAMEBUFFER_WIDTH ∧ u.y < Fb8.FRAMEBUFFER_HEIGHT ∧
        u.color < 16) ∧
      (Fb8.runDraw Fb8.initState
        ([⟨1, 0, 3⟩, ⟨2, 0, 5⟩, ⟨1, 0, 7⟩] : List Fb8.PixelUpdate)).2 = 0) ∧
    ((Fb8.applyBufferUpdates (Fb8.runDraw Fb8.initState
        ([⟨1, 0, 3⟩, ⟨2, 0, 5⟩, ⟨1, 0, 7⟩] :
          List Fb8.PixelUpdate)).1).update_buffer_read_index =
      (Fb8.applyBufferUpdates (Fb8.runDraw Fb8.initState
        ([⟨1, 0, 3⟩, ⟨2, 0, 5⟩, ⟨1, 0, 7⟩] :
          List Fb8.PixelUpdate)).1).update_buffer_write_index ∧
      (Fb8.applyBufferUpdates (Fb8.runDraw Fb8.initState
        ([⟨1, 0, 3⟩, ⟨2, 0, 5⟩, ⟨1, 0, 7⟩] : List Fb8.PixelUpdate)).1).dram
        (Fb8.dram_row_of ⟨1, 0, 7⟩) (Fb8.dram_col_of ⟨1, 0, 7⟩) = 7 ∧
      (Fb8.applyBufferUpdates (Fb8.runDraw Fb8.initState
        ([⟨1, 0, 3⟩, ⟨2, 0, 5⟩, ⟨1, 0, 7⟩] : List Fb8.PixelUpdate)).1).dram
        100 100 = Fb8.initState.dram 100 100) := by
  refine ⟨⟨rfl, by decide, by decide, by decide⟩, ?_⟩
  obtain ⟨h1, h2, h3⟩ := enqueues_then_drain_last_write_wins
    ([⟨1, 0, 3⟩, ⟨2, 0, 5⟩, ⟨1, 0, 7⟩] : List Fb8.PixelUpdate)
    Fb8.initState rfl (by decide) (by decide) (by decide)
  refine ⟨h1, ?_, h3 100 100 (by decide)⟩
  refine h2 2 ⟨1, 0, 7⟩ (by decide) ?_
  intro j v hj hlt
  have hnone : ([⟨1, 0, 3⟩, ⟨2, 0, 5⟩, ⟨1, 0, 7⟩] :
      List Fb8.PixelUpdate).length ≤ j := by
    simp only [List.length_cons, List.length_nil]
    omega
  rw [List.getElem?_eq_none hnone] at hj
  cases hj

/-- C4 counterexample: enqueueing `MAX_UPDATE_BUFFER_SIZE + 5 = 517` in-range
updates into the empty ring drops exactly `6` of them, not `5`: the ring
stores at most `511 = capacity - 1` entries because the write index may never
catch up with the read index. -/
theorem enqueue_overflow_drops_six_not_five :
    (Fb8.runDraw Fb8.initState
      ((List.range 517).map (fun i => ⟨i % 320, i / 320, 1⟩))).2 = 6 ∧
    (Fb8.runDraw Fb8.initState
      ((List.range 517).map (fun i => ⟨i % 320, i / 320, 1⟩))).2 ≠ 5 := by
  have hin : ∀ u ∈ (List.range 517).map
      (fun i => (⟨i % 320, i / 320, 1⟩ : Fb8.PixelUpdate)),
      u.x < Fb8.FRAMEBUFFER_WIDTH ∧ u.y < Fb8.FRAMEBUFFER_HEIGHT := by
    intro u hu
    obtain ⟨i, hi, rfl⟩ := List.mem_map.mp hu
    have hi517 : i < 517 := List.mem_range.mp hi
    constructor
    · show i % 320 < 320
      omega
    · show i / 320 < 240
      omega
  obtain ⟨c1, _⟩ := Fb8.runDraw_spec
    ((List.range 517).map (fun i => ⟨i % 320, i / 320, 1⟩))
    Fb8.initState 0 (by decide) (by decide) (by omega) hin
  have hlen : ((List.range 517).map
      (fun i => (⟨i % 320, i / 320, 1⟩ : Fb8.PixelUpdate))).length = 517 := by
    rw [List.length_map, List.length_range]
  rw [c1, hlen]
  omega

/-- C4 amended: enqueueing `capacity + 5` in-range updates into an empty ring
drops exactly `6` (the ring holds at most `capacity - 1 = 511` entries), sets
the sticky overflow flag, and the surviving unread entries are exactly the
oldest `capacity - 1` updates in order. -/
theorem enqueue_overflow_keeps_oldest_511
    (us : List Fb8.PixelUpdate) (s0 : Fb8.SystemState)
    (hempty : s0.update_buffer_read_index = s0.update_buffer_write_index)
    (hr : s0.update_buffer_read_index < Fb8.MAX_UPDATE_BUFFER_SIZE)
    (hin : ∀ u ∈ us, u.x < Fb8.FRAMEBUFFER_WIDTH ∧ u.y < Fb8.FRAMEBUFFER_HEIGHT)
    (hlen : us.length = Fb8.MAX_UPDATE_BUFFER_SIZE + 5) :
    (Fb8.runDraw s0 us).2 = 6 ∧
    (Fb8.runDraw s0 us).1.buffer_overflow = true ∧
    (Fb8.runDraw s0 us).1.update_buffer_read_index =
      s0.update_buffer_read_index ∧
    (Fb8.runDraw s0 us).1.update_buffer_write_index =
      (s0.update_buffer_read_index + (Fb8.MAX_UPDATE_BUFFER_SIZE - 1)) %
        Fb8.MAX_UPDATE_BUFFER_SIZE ∧
    (∀ (j : Nat) (u : Fb8.PixelUpdate), us[j]? = some u →
      j < Fb8.MAX_UPDATE_BUFFER_SIZE - 1 →
      (Fb8.runDraw s0 us).1.update_buffer
        ((s0.update_buffer_read_index + j) % Fb8.MAX_UPDATE_BUFFER_SIZE) = u) := by
  have hr512 : s0.update_buffer_read_index < 512 := hr
  have hlen517 : us.length = 517 := hlen
  have hw0 : s0.update_buffer_write_index =
      (s0.update_buffer_read_index + 0) % 512 := by
    rw [← hempty]
    omega
  obtain ⟨c1, c2, c3, c4, c5, c6, c7, c8, c9⟩ :=
    Fb8.runDraw_spec us s0 0 hw0 hr512 (by omega) hin
  refine ⟨?_, ?_, c2, ?_, ?_⟩
  · rw [c1]
    omega
  · rw [c5]
    have hd : decide (511 - 0 < us.length) = true := by
      rw [decide_eq_true_eq]
      omega
    rw [hd, Bool.or_true]
  · show (Fb8.runDraw s0 us).1.update_buffer_write_index =
      (s0.update_buffer_read_index + 511) % 512
    rw [c3]
    omega
  · intro j u hj hjlt
    have hjlt511 : j < 511 := hjlt
    show (Fb8.runDraw s0 us).1.update_buffer
      ((s0.update_buffer_read_index + j) % 512) = u
    have hidx : (s0.update_buffer_read_index + j) % 512 =
        (s0.update_buffer_read_index + 0 + j) % 512 := by
      omega
    rw [hidx]
    exact c8 j u hj (by omega)

/-- Witness for the amended C4 at 517 concrete in-range updates from the
initial state: 6 calls fail, the overflow flag is set, the indices land where
the amended claim says, and slot 0 of the ring holds the first update. -/
theorem enqueue_overflow_keeps_oldest_511_witness :
    ((Fb8.initState.update_buffer_read_index =
        Fb8.initState.update_buffer_write_index) ∧
      Fb8.initState.update_buffer_read_index < Fb8.MAX_UPDATE_BUFFER_SIZE ∧
      (∀ u ∈ (List.range 517).map
          (fun i => (⟨i % 320, i / 320, 1⟩ : Fb8.PixelUpdate)),
        u.x < Fb8.FRAMEBUFFER_WIDTH ∧ u.y < Fb8.FRAMEBUFFER_HEIGHT) ∧
      ((List.range 517).map
        (fun i => (⟨i % 320, i / 320, 1⟩ : Fb8.PixelUpdate))).length =
        Fb8.MAX_UPDATE_BUFFER_SIZE + 5) ∧
    ((Fb8.runDraw Fb8.initState ((List.range 517).map
        (fun i => ⟨i % 320, i / 320, 1⟩))).2 = 6 ∧
      (Fb8.runDraw Fb8.initState ((List.range 517).map
        (fun i => ⟨i % 320, i / 320, 1⟩))).1.buffer_overflow = true ∧
      (Fb8.runDraw Fb8.initState ((List.range 517).map
        (fun i => ⟨i % 320, i / 320, 1⟩))).1.update_buffer_read_index = 0 ∧
      (Fb8.runDraw Fb8.initState ((List.range 517).map
        (fun i => ⟨i % 320, i / 320, 1⟩))).1.update_buffer_write_index = 511 ∧
      (Fb8.runDraw Fb8.initState ((List.range 517).map
        (fun i => ⟨i % 320, i / 320, 1⟩))).1.update_buffer 0 = ⟨0, 0, 1⟩) := by
  have hin : ∀ u ∈ (List.range 517).map
      (fun i => (⟨i % 320, i / 320, 1⟩ : Fb8.PixelUpdate)),
      u.x < Fb8.FRAMEBUFFER_WIDTH ∧ u.y < Fb8.FRAMEBUFFER_HEIGHT := by
    intro u hu
    obtain ⟨i, hi, rfl⟩ := List.mem_map.mp hu
    have hi517 : i < 517 := List.mem_range.mp hi
    exact ⟨by show i % 320 < 320; omega, by show i / 320 < 240; omega⟩
  have hlen : ((List.range 517).map
      (fun i => (⟨i % 320, i / 320, 1⟩ : Fb8.PixelUpdate))).length =
      Fb8.MAX_UPDATE_BUFFER_SIZE + 5 := by
    rw [List.length_map, List.length_range]
    decide
  refine ⟨⟨rfl, by decide, hin, hlen⟩, ?_⟩
  obtain ⟨h1, h2, h3, h4, h5⟩ := enqueue_overflow_keeps_oldest_511
    ((List.range 517).map (fun i => ⟨i % 320, i / 320, 1⟩))
    Fb8.initState rfl (by decide) hin hlen
  refine ⟨h1, h2, h3, ?_, ?_⟩
  · rw [h4]
    decide
  · have h0 := h5 0 ⟨0, 0, 1⟩ (by decide) (by decide)
    have hidx : (Fb8.initState.update_buffer_read_index + 0) %
        Fb8.MAX_UPDATE_BUFFER_SIZE = 0 := by decide
    rw [hidx] at h0
    exact h0

/-- C5 counterexample: on the very first frame the handler drains but performs
no DRAM refresh, because `frame_count` becomes `1` and `1 & 0x3F != 0`.  A
full-array refresh therefore does not occur on every frame. -/
theorem vsync_frame_one_skips_refresh :
    (Fb8.vsyncISR Fb8.initState).refresh_events =
      Fb8.initState.refresh_events ∧
    (Fb8.vsyncISR Fb8.initState).frame_count =
      Fb8.initState.frame_count + 1 := by
  decide

/-- C5 amended: every execution of the frame handler drains the update queue
to empty and increments the 32-bit frame counter; the full-array DRAM refresh
runs exactly when the incremented counter is a multiple of 64 (once every 64
frames), not on every frame. -/
theorem vsync_drains_always_refreshes_every_64th (s : Fb8.SystemState)
    (hr : s.update_buffer_read_index < Fb8.MAX_UPDATE_BUFFER_SIZE)
    (hw : s.update_buffer_write_index < Fb8.MAX_UPDATE_BUFFER_SIZE) :
    (Fb8.vsyncISR s).update_buffer_read_index =
      (Fb8.vsyncISR s).update_buffer_write_index ∧
    (Fb8.vsyncISR s).frame_count = (s.frame_count + 1) % 2 ^ 32 ∧
    ((s.frame_count + 1) % 2 ^ 32 % 64 = 0 →
      (Fb8.vsyncISR s).refresh_events = s.refresh_events + 1) ∧
    ((s.frame_count + 1) % 2 ^ 32 % 64 ≠ 0 →
      (Fb8.vsyncISR s).refresh_events = s.refresh_events) := by
  have hXr : ({ s with
      frame_count := (s.frame_count + 1) % 2 ^ 32,
      vblank_active := true } :
      Fb8.SystemState).update_buffer_read_index < 512 := hr
  have hXw : ({ s with
      frame_count := (s.frame_count + 1) % 2 ^ 32,
      vblank_active := true } :
      Fb8.SystemState).update_buffer_write_index < 512 := hw
  have hempty := Fb8.drainAux_empties 512
    { s with
      frame_count := (s.frame_count + 1) % 2 ^ 32,
      vblank_active := true } hXr hXw (by omega)
  have hpres := Fb8.drainAux_preserves 512
    { s with
      frame_count := (s.frame_count + 1) % 2 ^ 32,
      vblank_active := true }
  have hfc2 : (Fb8.drainAux 512
      { s with
        frame_count := (s.frame_count + 1) % 2 ^ 32,
        vblank_active := true }).frame_count = (s.frame_count + 1) % 2 ^ 32 :=
    hpres.2.2.2.1
  have hre2 : (Fb8.drainAux 512
      { s with
        frame_count := (s.frame_count + 1) % 2 ^ 32,
        vblank_active := true }).refresh_events = s.refresh_events :=
    hpres.2.2.2.2
  have hAB : Fb8.applyBufferUpdates
      { s with
        frame_count := (s.frame_count + 1) % 2 ^ 32,
        vblank_active := true } = Fb8.drainAux 512
      { s with
        frame_count := (s.frame_count + 1) % 2 ^ 32,
        vblank_active := true } := rfl
  refine ⟨?_, ?_, ?_, ?_⟩
  · unfold Fb8.vsyncISR
    by_cases hc : (Fb8.applyBufferUpdates
        { s with
          frame_count := (s.frame_count + 1) % 2 ^ 32,
          vblank_active := true }).frame_count % 64 = 0
    · simp only [hc, if_true, Fb8.refreshDRAM]
      exact hempty
    · simp only [hc, if_false]
      exact hempty
  · unfold Fb8.vsyncISR
    by_cases hc : (Fb8.applyBufferUpdates
        { s with
          frame_count := (s.frame_count + 1) % 2 ^ 32,
          vblank_active := true }).frame_count % 64 = 0
    · simp only [hc, if_true, Fb8.refreshDRAM]
      exact hfc2
    · simp only [hc, if_false]
      exact hfc2
  · intro h64
    have hc : (Fb8.applyBufferUpdates
        { s with
          frame_count := (s.frame_count + 1) % 2 ^ 32,
          vblank_active := true }).frame_count % 64 = 0 := by
      rw [hAB, hfc2]
      exact h64
    unfold Fb8.vsyncISR
    simp only [hc, if_true, Fb8.refreshDRAM]
    rw [hAB, hre2]
  · intro h64
    have hc : ¬ (Fb8.applyBufferUpdates
        { s with
          frame_count := (s.frame_count + 1) % 2 ^ 32,
          vblank_active := true }).frame_count % 64 = 0 := by
      rw [hAB, hfc2]
      exact h64
    unfold Fb8.vsyncISR
    simp only [hc, if_false]
    rw [hAB, hre2]

/-- Witness for the amended C5 at the initial state: its frame counter becomes
`1`, which is not a multiple of `64`, so the handler drains without
refreshing. -/
theorem vsync_drains_always_refreshes_every_64th_witness :
    (Fb8.initState.update_buffer_read_index < Fb8.MAX_UPDATE_BUFFER_SIZE ∧
      Fb8.initState.update_buffer_write_index < Fb8.MAX_UPDATE_BUFFER_SIZE ∧
      (Fb8.initState.frame_count + 1) % 2 ^ 32 % 64 ≠ 0) ∧
    ((Fb8.vsyncISR Fb8.initState).update_buffer_read_index =
      (Fb8.vsyncISR Fb8.initState).update_buffer_write_index ∧
      (Fb8.vsyncISR Fb8.initState).frame_count =
        (Fb8.initState.frame_count + 1) % 2 ^ 32 ∧
      (Fb8.vsyncISR Fb8.initState).refresh_events =
        Fb8.initState.refresh_events) := by
  refine ⟨⟨by decide, by decide, by decide⟩, ?_⟩
  obtain ⟨a, b, _, d⟩ := vsync_drains_always_refreshes_every_64th
    Fb8.initState (by decide) (by decide)
  exact ⟨a, b, d (by decide)⟩

/-- C6: for every in-range `(row, col)` and 4-bit `value`, `writeDram`
followed immediately by `readDram` at the same address returns `value`, and
the write leaves every other DRAM cell unchanged. -/
theorem writeDram_readDram_roundtrip (d : Nat → Nat → Nat)
    (row col value : Nat)
    (hrow : row < P2.DRAM_ROWS) (hcol : col < P2.DRAM_COLS)
    (hval : value < 16) :
    P2.readDram (P2.writeDram d row col value) row col = value ∧
    (∀ r c, ¬(r = row ∧ c = col) → P2.writeDram d row col value r c = d r c) := by
  have hrow512 : row < 512 := hrow
  have hcol512 : col < 512 := hcol
  constructor
  · unfold P2.readDram P2.writeDram
    simp
    omega
  · intro r c hrc
    unfold P2.writeDram
    have hne : ¬(r = row % 512 ∧ c = col % 512) := by
      intro hcon
      exact hrc ⟨by omega, by omega⟩
    rw [if_neg hne]

/-- Witness for C6 at `(row, col, value) = (3, 5, 9)` over the all-zero DRAM:
the readback returns `9` and the unrelated cell `(7, 7)` still reads `0`. -/
theorem writeDram_readDram_roundtrip_witness :
    (3 < P2.DRAM_ROWS ∧ 5 < P2.DRAM_COLS ∧ 9 < 16) ∧
    P2.readDram (P2.writeDram (fun _ _ => 0) 3 5 9) 3 5 = 9 ∧
    P2.writeDram (fun _ _ => 0) 3 5 9 7 7 = 0 := by
  refine ⟨⟨by decide, by decide, by decide⟩, ?_, ?_⟩
  · exact (writeDram_readDram_roundtrip (fun _ _ => 0) 3 5 9
      (by decide) (by decide) (by decide)).1
  · exact (writeDram_readDram_roundtrip (fun _ _ => 0) 3 5 9
      (by decide) (by decide) (by decide)).2 7 7 (by decide)

/-- C7: the DRAM address used by the drain is `linear_index = y * width + x`,
`dram_row = linear_index / dram_cols`, `dram_col = linear_index % dram_cols`,
in both `mega_edo_fb8_320x240_fix.ino` (32-bit arithmetic, width 320) and
`mega_edo_fp6.ino` (16-bit arithmetic, width 256): for in-range pixels every
machine truncation is the identity.  Determinism is inherent: both mappings
are pure functions of `(x, y)`. -/
theorem pixel_to_dram_mapping :
    (∀ x y color : Nat, x < Fb8.FRAMEBUFFER_WIDTH → y < Fb8.FRAMEBUFFER_HEIGHT →
      Fb8.dram_row_of ⟨x, y, color⟩ =
        (y * Fb8.FRAMEBUFFER_WIDTH + x) / Fb8.DRAM_COLS ∧
      Fb8.dram_col_of ⟨x, y, color⟩ =
        (y * Fb8.FRAMEBUFFER_WIDTH + x) % Fb8.DRAM_COLS) ∧
    (∀ x y : Nat, x < Fp6.FRAMEBUFFER_WIDTH → y < Fp6.FRAMEBUFFER_HEIGHT →
      Fp6.dramRow x y = (y * Fp6.FRAMEBUFFER_WIDTH + x) / Fp6.DRAM_COLS ∧
      Fp6.dramCol x y = (y * Fp6.FRAMEBUFFER_WIDTH + x) % Fp6.DRAM_COLS) := by
  constructor
  · intro x y color hx hy
    exact ⟨Fb8.dram_row_of_inrange ⟨x, y, color⟩ hx hy,
      Fb8.dram_col_of_inrange ⟨x, y, color⟩ hx hy⟩
  · intro x y hx hy
    unfold Fp6.dramRow Fp6.dramCol Fp6.pixelIndex at *
    unfold Fp6.FRAMEBUFFER_WIDTH Fp6.FRAMEBUFFER_HEIGHT Fp6.DRAM_COLS at *
    have h16 : (2 : Nat) ^ 16 = 65536 := by norm_num
    rw [h16]
    constructor
    · omega
    · omega

/-- Witness for C7 at the concrete pixel `(5, 3)` in both variants. -/
theorem pixel_to_dram_mapping_witness :
    ((5 < Fb8.FRAMEBUFFER_WIDTH ∧ 3 < Fb8.FRAMEBUFFER_HEIGHT) ∧
      (5 < Fp6.FRAMEBUFFER_WIDTH ∧ 3 < Fp6.FRAMEBUFFER_HEIGHT)) ∧
    (Fb8.dram_row_of ⟨5, 3, 9⟩ =
        (3 * Fb8.FRAMEBUFFER_WIDTH + 5) / Fb8.DRAM_COLS ∧
      Fb8.dram_col_of ⟨5, 3, 9⟩ =
        (3 * Fb8.FRAMEBUFFER_WIDTH + 5) % Fb8.DRAM_COLS) ∧
    (Fp6.dramRow 5 3 = (3 * Fp6.FRAMEBUFFER_WIDTH + 5) / Fp6.DRAM_COLS ∧
      Fp6.dramCol 5 3 = (3 * Fp6.FRAMEBUFFER_WIDTH + 5) % Fp6.DRAM_COLS) :=
  ⟨⟨⟨by decide, by decide⟩, ⟨by decide, by decide⟩⟩,
    pixel_to_dram_mapping.1 5 3 9 (by decide) (by decide),
    pixel_to_dram_mapping.2 5 3 (by decide) (by decide)⟩

/-- C8: `refreshIfNeeded(now)` performs the full-array refresh if and only if
the elapsed time since the recorded last refresh is at least the configured
interval; when due it logs the sweep of rows `0..255` and records `now` as
the new timestamp, and otherwise it changes no state at all. -/
theorem refreshIfNeeded_spec (now : Nat) (s : Opt.OptState) :
    ((Opt.refreshIfNeeded now s).refreshHistory ≠ s.refreshHistory ↔
      Opt.refreshInterval ≤ Opt.elapsedMicros now s.lastRefreshMicros) ∧
    (Opt.refreshInterval ≤ Opt.elapsedMicros now s.lastRefreshMicros →
      Opt.refreshIfNeeded now s =
        { lastRefreshMicros := now,
          refreshHistory := List.range 256 :: s.refreshHistory }) ∧
    (Opt.elapsedMicros now s.lastRefreshMicros < Opt.refreshInterval →
      Opt.refreshIfNeeded now s = s) := by
  by_cases hc : Opt.refreshInterval ≤ Opt.elapsedMicros now s.lastRefreshMicros
  · refine ⟨?_, ?_, ?_⟩
    · unfold Opt.refreshIfNeeded Opt.refreshAllRows
      rw [if_pos hc]
      refine iff_of_true ?_ hc
      intro heq
      have hlen := congrArg List.length heq
      simp at hlen
    · intro _
      unfold Opt.refreshIfNeeded Opt.refreshAllRows
      rw [if_pos hc]
    · intro hlt
      exact absurd hc (by omega)
  · refine ⟨?_, ?_, ?_⟩
    · unfold Opt.refreshIfNeeded
      rw [if_neg hc]
      exact iff_of_false (by simp) hc
    · intro h
      exact absurd h hc
    · intro _
      unfold Opt.refreshIfNeeded
      rw [if_neg hc]

/-- Witness for C8: from `lastRefreshMicros = 0`, at `now = 300` the elapsed
time `300` reaches the interval `250`, so one sweep is logged and the
timestamp becomes `300`; at `now = 100` nothing changes. -/
theorem refreshIfNeeded_spec_witness :
    (Opt.refreshInterval ≤ Opt.elapsedMicros 300 (0 : Nat) ∧
      Opt.elapsedMicros 100 (0 : Nat) < Opt.refreshInterval) ∧
    Opt.refreshIfNeeded 300 ⟨0, []⟩ =
      { lastRefreshMicros := 300, refreshHistory := [List.range 256] } ∧
    Opt.refreshIfNeeded 100 ⟨0, []⟩ = (⟨0, []⟩ : Opt.OptState) := by
  refine ⟨⟨by decide, by decide⟩, ?_, ?_⟩
  · exact (refreshIfNeeded_spec 300 ⟨0, []⟩).2.1 (by decide)
  · exact (refreshIfNeeded_spec 100 ⟨0, []⟩).2.2 (by decide)

/-- C9: in every reachable state both ring indices are strictly below
`MAX_UPDATE_BUFFER_SIZE`, the number of unread entries
`(write - read) mod MAX_UPDATE_BUFFER_SIZE` is at most
`MAX_UPDATE_BUFFER_SIZE - 1` (a full ring stores one fewer entry than its
declared size), and no `drawPixel` call ever writes the slot immediately
preceding the read index. -/
theorem ring_occupancy_invariant (s : Fb8.SystemState) (h : Fb8.Reachable s) :
    s.update_buffer_read_index < Fb8.MAX_UPDATE_BUFFER_SIZE ∧
    s.update_buffer_write_index < Fb8.MAX_UPDATE_BUFFER_SIZE ∧
    Fb8.unreadCount s ≤ Fb8.MAX_UPDATE_BUFFER_SIZE - 1 ∧
    (∀ x y color : Nat,
      (Fb8.drawPixel s x y color).1.update_buffer
          ((s.update_buffer_read_index + (Fb8.MAX_UPDATE_BUFFER_SIZE - 1)) %
            Fb8.MAX_UPDATE_BUFFER_SIZE) =
        s.update_buffer
          ((s.update_buffer_read_index + (Fb8.MAX_UPDATE_BUFFER_SIZE - 1)) %
            Fb8.MAX_UPDATE_BUFFER_SIZE)) := by
  obtain ⟨h1, h2⟩ := Fb8.reachable_indices_lt s h
  refine ⟨h1, h2, ?_, ?_⟩
  · show (s.update_buffer_write_index + 512 - s.update_buffer_read_index) %
      512 ≤ 511
    omega
  · intro x y color
    unfold Fb8.drawPixel
    by_cases hb : Fb8.FRAMEBUFFER_WIDTH ≤ x ∨ Fb8.FRAMEBUFFER_HEIGHT ≤ y
    · simp [hb]
    · by_cases hfull : (s.update_buffer_write_index + 1) %
          Fb8.MAX_UPDATE_BUFFER_SIZE = s.update_buffer_read_index
      · simp [hb, hfull]
      · have hfull512 : (s.update_buffer_write_index + 1) % 512 ≠
            s.update_buffer_read_index := hfull
        have hne : (s.update_buffer_read_index +
            (Fb8.MAX_UPDATE_BUFFER_SIZE - 1)) % Fb8.MAX_UPDATE_BUFFER_SIZE ≠
            s.update_buffer_write_index := by
          show (s.update_buffer_read_index + 511) % 512 ≠
            s.update_buffer_write_index
          omega
        simp only [hb, if_false, hfull, if_neg hne]

/-- Witness for C9 at the initial state (reachable by construction), with the
slot-preservation clause instantiated at the concrete call `(5, 6, 7)`. -/
theorem ring_occupancy_invariant_witness :
    Fb8.Reachable Fb8.initState ∧
    Fb8.initState.update_buffer_read_index < Fb8.MAX_UPDATE_BUFFER_SIZE ∧
    Fb8.initState.update_buffer_write_index < Fb8.MAX_UPDATE_BUFFER_SIZE ∧
    Fb8.unreadCount Fb8.initState ≤ Fb8.MAX_UPDATE_BUFFER_SIZE - 1 ∧
    (Fb8.drawPixel Fb8.initState 5 6 7).1.update_buffer
        ((Fb8.initState.update_buffer_read_index +
          (Fb8.MAX_UPDATE_BUFFER_SIZE - 1)) % Fb8.MAX_UPDATE_BUFFER_SIZE) =
      Fb8.initState.update_buffer
        ((Fb8.initState.update_buffer_read_index +
          (Fb8.MAX_UPDATE_BUFFER_SIZE - 1)) % Fb8.MAX_UPDATE_BUFFER_SIZE) := by
  obtain ⟨a, b, c, d⟩ :=
    ring_occupancy_invariant Fb8.initState Fb8.Reachable.init
  exact ⟨Fb8.Reachable.init, a, b, c, d 5 6 7⟩

/-- C10: an out-of-bounds request (`x >= FRAMEBUFFER_WIDTH` or
`y >= FRAMEBUFFER_HEIGHT`) makes `drawPixel` return `false` and leave the
entire state — indices, ring contents, and both health flags — unchanged. -/
theorem drawPixel_out_of_bounds_noop (s : Fb8.SystemState) (x y color : Nat)
    (h : Fb8.FRAMEBUFFER_WIDTH ≤ x ∨ Fb8.FRAMEBUFFER_HEIGHT ≤ y) :
    Fb8.drawPixel s x y color = (s, false) := by
  unfold Fb8.drawPixel
  simp [h]

/-- Witness for C10 at the concrete out-of-bounds input `x = 320`. -/
theorem drawPixel_out_of_bounds_noop_witness :
    (Fb8.FRAMEBUFFER_WIDTH ≤ 320 ∨ Fb8.FRAMEBUFFER_HEIGHT ≤ 0) ∧
    Fb8.drawPixel Fb8.initState 320 0 7 = (Fb8.initState, false) :=
  ⟨Or.inl (by decide),
   drawPixel_out_of_bounds_noop Fb8.initState 320 0 7 (Or.inl (by decide))⟩
